import Mathlib

/-!
Verification of the SOAP client in `client.go` (package `soap`).

Byte strings (`[]byte`, Go `string`) are embedded as `List Char`; the Go
standard-library collaborators (`encoding/xml`, `net/http`, `mime`) are
embedded as explicit parameters or as small faithful models of the part of
their behaviour the client exercises.  All definitions are transcribed from
`client.go` except where a doc comment says `Modelled from the spec:`, which
marks material from a repository file that is not part of the sources here
(the constants file declaring the namespace/content-type/version literals and
the Envelope/Body/Fault structs).
-/

deriving instance DecidableEq for Except

/-- Go `[]byte` / `string` payloads. -/
abbrev Bytes := List Char

/-- Go `error` values, identified with their message text. -/
abbrev Err := List Char

/-- Modelled from the spec: the SOAP 1.1 envelope namespace literal
(`bNamespaceSoap11`), declared in a repository file not present under the
sources; the spec fixes it to be the literal SOAP 1.1 envelope namespace URI. -/
def bNamespaceSoap11 : Bytes := "http://schemas.xmlsoap.org/soap/envelope/".toList

/-- Modelled from the spec: the SOAP 1.2 envelope namespace literal
(`bNamespaceSoap12`), declared in a repository file not present under the
sources; the spec fixes it to be the literal SOAP 1.2 envelope namespace URI. -/
def bNamespaceSoap12 : Bytes := "http://www.w3.org/2003/05/soap-envelope".toList

/-- Modelled from the spec: the version selector literal for SOAP 1.1. -/
def SoapVersion11 : String := "1.1"

/-- Modelled from the spec: the version selector literal for SOAP 1.2. -/
def SoapVersion12 : String := "1.2"

/-- Modelled from the spec: the SOAP 1.1 Content-Type literal
(a `text/xml; charset=utf-8`-class value). -/
def SoapContentType11 : String := "text/xml; charset=\"utf-8\""

/-- Modelled from the spec: the SOAP 1.2 Content-Type literal
(the analogous SOAP 1.2 media type). -/
def SoapContentType12 : String := "application/soap+xml; charset=\"utf-8\""

/-- Worker for `replaceAll`: scan the subject left to right; `skip` counts
subject characters still owed to an already-emitted replacement.  This is the
leftmost, non-overlapping scan performed by Go's `bytes.ReplaceAll` (for the
non-empty patterns this client uses), written so that it is structural on the
subject and therefore evaluates inside the kernel. -/
def replaceAllAux (pat rep : Bytes) : Nat → Bytes → Bytes
  | _, [] => []
  | k + 1, _ :: rest => replaceAllAux pat rep k rest
  | 0, c :: rest =>
    if pat.isPrefixOf (c :: rest) then rep ++ replaceAllAux pat rep (pat.length - 1) rest
    else c :: replaceAllAux pat rep 0 rest

/-- Embedding of `bytes.ReplaceAll(s, pat, rep)` for non-empty `pat`
(the only patterns the client passes): replace every leftmost,
non-overlapping occurrence of `pat` in `s` by `rep`. -/
def replaceAll (pat rep s : Bytes) : Bytes := replaceAllAux pat rep 0 s

/-- Transcribes `replaceSoap12to11` from `client.go`: rewrite every occurrence of the
SOAP 1.2 namespace literal into the SOAP 1.1 one. -/
def replaceSoap12to11 (data : Bytes) : Bytes :=
  replaceAll bNamespaceSoap12 bNamespaceSoap11 data

/-- Transcribes `replaceSoap11to12` from `client.go`: rewrite every occurrence of the
SOAP 1.1 namespace literal into the SOAP 1.2 one. -/
def replaceSoap11to12 (data : Bytes) : Bytes :=
  replaceAll bNamespaceSoap11 bNamespaceSoap12 data

/-- Transcribes `soapPrefixTagUC` from `client.go`. -/
def soapPrefixTagUC : Bytes := "<SOAP".toList

/-- Transcribes `soapPrefixTagLC` from `client.go`. -/
def soapPrefixTagLC : Bytes := "<soap".toList

/-- The soapy-part test of `Call` line 151:
`bytes.HasPrefix(slurp, soapPrefixTagLC) || bytes.HasPrefix(slurp, soapPrefixTagUC)`. -/
def isSoapPart (slurp : Bytes) : Bool :=
  soapPrefixTagLC.isPrefixOf slurp || soapPrefixTagUC.isPrefixOf slurp

/-- Embedding of `bytes.Contains(b, subslice)`: does `subslice` occur
anywhere in `b`?  (This, not a prefix test, is what `Call` line 171 runs on a
single-part body.) -/
def bytesContains (b subslice : Bytes) : Bool :=
  match b with
  | [] => subslice.isEmpty
  | _ :: rest => subslice.isPrefixOf b || bytesContains rest subslice

/-- The error text `Call` produces when no multipart part is soapy
(the source message reads exactly like this, missing word included). -/
def noSoapPartMsg : Err := "multipart message does contain a soapy part".toList

/-- The error `Call` produces for a non-empty single-part body with no SOAP tag. -/
def notSoapMsg (rawBody : Bytes) : Err :=
  "This is not a SOAP-Message: \n".toList ++ rawBody

/-- The error `Call` produces when the response envelope fails to unmarshal
(`fmt.Errorf("soap/client.go Call(): COULD NOT UNMARSHAL: %s\n", err)`). -/
def unmarshalFailMsg (e : Err) : Err :=
  "soap/client.go Call(): COULD NOT UNMARSHAL: ".toList ++ e ++ "\n".toList

/-- The multipart scan of `Call` lines 139-159: walk the part stream in order;
a part that fails to be produced or read aborts with that error, the first
soapy part is returned, and exhausting the stream (the `io.EOF` break) yields
the no-soapy-part error.  Each list element models one `NextPart`/`ReadAll`
round: either the bytes slurped from the part or the error that round hit. -/
def findSoapPart : List (Except Err Bytes) → Except Err Bytes
  | [] => .error noSoapPartMsg
  | .error e :: _ => .error e
  | .ok slurp :: rest => if isSoapPart slurp then .ok slurp else findSoapPart rest

/-- The token stream shapes `formatFaultXML` consumes from `encoding/xml`'s
`Decoder.Token`: start elements, character data, end elements.  Element names
carry only what the formatter reads, the local name. -/
inductive XmlToken
  | startElement (localN : Bytes)
  | charData (text : Bytes)
  | endElement (localN : Bytes)
deriving DecidableEq

/-- Local-name extraction of `encoding/xml`: a name `prefix:local` is split at
its first colon and only `local` is kept; a name with no colon is kept whole. -/
def localName (raw : Bytes) : Bytes :=
  match raw.dropWhile (fun c => !(c == ':')) with
  | [] => raw
  | _ :: afterColon => afterColon

/-- Fuel-driven worker for `tokenize`; fuel bounds the number of tokens, and
one character is consumed per token at least, so `s.length` fuel suffices. -/
def tokenizeFuel : Nat → Bytes → List XmlToken
  | 0, _ => []
  | _, [] => []
  | fuel + 1, '<' :: '/' :: rest =>
    let name := rest.takeWhile (fun c => !(c == '>'))
    match rest.dropWhile (fun c => !(c == '>')) with
    | '>' :: rest2 => .endElement (localName name) :: tokenizeFuel fuel rest2
    | _ => []
  | fuel + 1, '<' :: rest =>
    let name := rest.takeWhile (fun c => !(c == '>'))
    match rest.dropWhile (fun c => !(c == '>')) with
    | '>' :: rest2 =>
      .startElement (localName (name.takeWhile (fun c => !(c == ' ')))) ::
        tokenizeFuel fuel rest2
    | _ => []
  | fuel + 1, s =>
    .charData (s.takeWhile (fun c => !(c == '<'))) ::
      tokenizeFuel fuel (s.dropWhile (fun c => !(c == '<')))

/-- Model of `encoding/xml` tokenisation as `formatFaultXML` drives it, for the
markup shapes the client feeds it (tags, text; attributes after the first
space of a tag are dropped, matching the formatter, which never reads them;
entity references are not decoded as no input here carries any).  A malformed
remainder ends the stream, which matches the formatter's loop stopping at the
first tokeniser error. -/
def tokenize (s : Bytes) : List XmlToken := tokenizeFuel s.length s

/-- The escaping table of `xml.EscapeText`, applied to one character. -/
def escChar (c : Char) : Bytes :=
  if c = '&' then "&amp;".toList
  else if c = Char.ofNat 39 then "&apos;".toList
  else if c = '<' then "&lt;".toList
  else if c = '>' then "&gt;".toList
  else if c = Char.ofNat 34 then "&quot;".toList
  else if c = '\t' then "&#x9;".toList
  else if c = '\n' then "&#xA;".toList
  else if c = '\r' then "&#xD;".toList
  else [c]

/-- Models `xml.EscapeText` over a whole character-data run. -/
def escapeText (cs : Bytes) : Bytes := (cs.map escChar).flatten

/-- The `ind()` closure of `formatFaultXML`: `n := level - startLevel - 1`
tabs when that is positive, none otherwise.  `level` is a Go `int`. -/
def indentChars (startLevel level : Int) : Bytes :=
  List.replicate (if level - startLevel - 1 > 0 then (level - startLevel - 1).toNat else 0) '\t'

/-- The loop state of `formatFaultXML`:  nesting level, accumulated output and
the two flags that drive line breaking.  (The source also assigns a
`lastWasCharData` flag, but immediately discards it; it steers nothing.) -/
structure FmtState where
  level : Int
  out : Bytes
  lastWasStart : Bool
  lastWasEnd : Bool
deriving DecidableEq

/-- One iteration of the token loop of `formatFaultXML`, transcribed case by
case from the `switch` in `client.go`. -/
def fmtStep (startLevel : Int) (st : FmtState) (tok : XmlToken) : FmtState :=
  match tok with
  | .startElement name =>
    let out1 := if st.lastWasEnd || st.lastWasStart then st.out ++ ['\n'] else st.out
    let out2 := out1 ++ indentChars startLevel st.level
    let out3 := if st.level > startLevel then out2 ++ ('<' :: name) ++ ['>'] else out2
    ⟨st.level + 1, out3, true, false⟩
  | .charData text =>
    ⟨st.level, st.out ++ escapeText text, false, false⟩
  | .endElement name =>
    let lvl := st.level - 1
    let out1 := if st.lastWasEnd then (st.out ++ ['\n']) ++ indentChars startLevel lvl else st.out
    let out2 := if lvl > startLevel then out1 ++ ('<' :: '/' :: name) ++ ['>'] else out1
    ⟨lvl, out2, false, true⟩

/-- Models `bytes.Trim(out, " \n")`: strip spaces and newlines from both ends. -/
def trimSpaceLF (l : Bytes) : Bytes :=
  ((l.dropWhile (fun c => c == ' ' || c == '\n')).reverse.dropWhile
    (fun c => c == ' ' || c == '\n')).reverse

/-- Transcribes `formatFaultXML` from `client.go`: stream-tokenise the fragment, run the
emission loop from level 0, and trim spaces and newlines from the result. -/
def formatFaultXML (xmlBytes : Bytes) (startLevel : Int) : Bytes :=
  trimSpaceLF ((tokenize xmlBytes).foldl (fmtStep startLevel) ⟨0, [], false, false⟩).out

/-- The fault error `Call` builds at line 202:
`"SOAP FAULT:\n" + formatFaultXML(rawBody, 1)`. -/
def soapFaultMsg (rawBody : Bytes) : Err :=
  "SOAP FAULT:\n".toList ++ formatFaultXML rawBody 1

/-- Modelled from the spec: the `Fault` struct (protocol-level error payload:
code, human-readable reason, optional detail), declared in a repository file
not present under the sources.  `Call` only tests it for presence. -/
structure Fault where
  faultCode : String
  faultString : String
  faultDetail : String
deriving DecidableEq

/-- Modelled from the spec: the `Body` struct — an application content value
and an optional `Fault`, coexisting as optional fields. -/
structure Body (α : Type) where
  content : α
  fault : Option Fault

/-- Modelled from the spec: the `Envelope` struct — an optional opaque header
and a mandatory `Body`. -/
structure Envelope (α : Type) where
  header : Option Unit
  body : Body α

/-- Transcribes `BasicAuth` from `client.go`. -/
structure BasicAuth where
  login : String
  password : String
deriving DecidableEq

/-- The value `xml.Unmarshal` writes through `respEnvelope.Body.Content`:
either the caller's response target or, when the caller passed `nil`, the
`dummyContent` placeholder (`dummy` here). -/
inductive Target (ρ : Type)
  | caller (r : ρ)
  | dummy
deriving DecidableEq

/-- What one run of `xml.Unmarshal` into
`&Envelope{Body: Body{Content: target}}` produces: the content target as left
by the decoder, the returned error if any, and `Body.Fault` as decoded.
`Call` reads `fault` only when `err` is `none`. -/
structure UnmarshalOutcome (ρ : Type) where
  newTarget : Target ρ
  err : Option Err
  fault : Option Fault
deriving DecidableEq

/-- The shape of the fixed `encoding/xml.Unmarshal` capability as `Call`
line 195 uses it: raw bytes and the content target in, an outcome out. -/
abbrev UnmarshalFn (ρ : Type) := Bytes → Target ρ → UnmarshalOutcome ρ

/-- The `XMLMarshaller` interface from `client.go` ("lets you inject your
favourite custom xml implementation"), at the two types `Call` exercises it
with: `Marshal` on the request envelope and `Unmarshal` on response bytes. -/
structure XMLMarshaller (α ρ : Type) where
  marshal : Envelope α → Except Err Bytes
  unmarshal : UnmarshalFn ρ

/-- The HTTP response as `Call` consumes it: the parsed media type of its
Content-Type header (`mime.ParseMediaType` result; a parse failure only logs
and leaves the non-multipart branch), and the body stream, readable either as
a multipart part sequence (via the boundary parameter) or as one full
`ReadAll` — `Call` picks exactly one of the two readings. -/
structure HttpResp where
  mediaType : Bytes
  parts : List (Except Err Bytes)
  singleBody : Except Err Bytes
deriving DecidableEq

/-- The `Client` struct from `client.go`.  The `Log` hook is omitted (it is
documented and implemented to never affect control flow); header-only
configuration (`RequestHeaderFn`) and the request headers themselves are not
modelled, as no claim mentions them.  `httpClientDoFn` keeps only what the
response handling reads from `*http.Response`. -/
structure Client (α ρ : Type) where
  url : String
  tls : Bool
  auth : Option BasicAuth
  marshaller : XMLMarshaller α ρ
  userAgent : String
  contentType : String
  soapVersion : String
  httpClientDoFn : Bytes → Except Err HttpResp

/-- Modelled from the spec: stands in for `http.DefaultClient.Do`, the
process-wide default transport `NewClient` installs; its network behaviour is
outside this embedding, so the model makes it reject every request. -/
def httpDefaultClientDo : Bytes → Except Err HttpResp :=
  fun _ => .error "network unavailable".toList

/-- Transcribes `NewClient` from `client.go`.  The two leading parameters stand for the
ambient standard-library capabilities the source reaches statically:
`defaultMarshaller{}` (the `encoding/xml` engine) and the default transport. -/
def NewClient {α ρ : Type} (stdMarshaller : XMLMarshaller α ρ)
    (stdDo : Bytes → Except Err HttpResp) (url : String) (auth : Option BasicAuth) :
    Client α ρ :=
  { url := url
    tls := false
    auth := auth
    marshaller := stdMarshaller
    userAgent := ""
    contentType := SoapContentType11
    soapVersion := SoapVersion11
    httpClientDoFn := stdDo }

/-- Transcribes `UseSoap11` from `client.go` (receiver mutation rendered functionally). -/
def useSoap11 {α ρ : Type} (c : Client α ρ) : Client α ρ :=
  { c with soapVersion := SoapVersion11, contentType := SoapContentType11 }

/-- Transcribes `UseSoap12` from `client.go` (receiver mutation rendered functionally). -/
def useSoap12 {α ρ : Type} (c : Client α ρ) : Client α ρ :=
  { c with soapVersion := SoapVersion12, contentType := SoapContentType12 }

/-- What `Call` returns, plus the state of the caller's response value after
the call (in Go that state lives behind the `response` pointer): the
`*http.Response`, the `error`, and the decode target. -/
structure CallResult (ρ : Type) where
  httpResp : Option HttpResp
  err : Option Err
  target : Target ρ
deriving DecidableEq

/-- Lines 83-85: `Envelope{Body: Body{Content: request}}`. -/
def requestEnvelope {α : Type} (request : α) : Envelope α :=
  { header := none, body := { content := request, fault := none } }

/-- Lines 186-194: the decode target is the caller's response value, or the
`dummyContent` placeholder when the caller passed `nil`. -/
def initTarget {ρ : Type} (response? : Option ρ) : Target ρ :=
  match response? with
  | some r => Target.caller r
  | none => Target.dummy

/-- Lines 83-94 of `Call`: marshal the request envelope with the injected
marshaller, then adjust namespaces for SOAP 1.2 exactly when the configured
version is SOAP 1.2. -/
def encodeRequest {α ρ : Type} (c : Client α ρ) (request : α) : Except Err Bytes :=
  match c.marshaller.marshal (requestEnvelope request) with
  | .error e => .error e
  | .ok xmlBytes =>
    .ok (if c.soapVersion = SoapVersion12 then replaceSoap11to12 xmlBytes else xmlBytes)

/-- Lines 181-204 of `Call`: translate the extracted body from the 1.2 to the
1.1 namespace (unconditionally), unmarshal it with the fixed `encoding/xml`
capability into the response envelope, surface an unmarshal failure, and turn
a decoded fault into the formatted `SOAP FAULT` error — formatted, as in the
source, from the already-translated `rawBody`. -/
def decodeRespond {ρ : Type} (xmlUnmarshal : UnmarshalFn ρ) (resp : HttpResp)
    (rawBody0 : Bytes) (response? : Option ρ) : CallResult ρ :=
  let rawBody := replaceSoap12to11 rawBody0
  let o := xmlUnmarshal rawBody (initTarget response?)
  match o.err with
  | some e => ⟨none, some (unmarshalFailMsg e), o.newTarget⟩
  | none =>
    match o.fault with
    | some _ => ⟨none, some (soapFaultMsg rawBody), o.newTarget⟩
    | none => ⟨some resp, none, o.newTarget⟩

/-- Lines 127-204 of `Call`: classify the response body.  A `multipart/`
media type is scanned for the soapy part; otherwise the whole body is read —
a read failure returns both the response and the error, an empty body is a
success with nothing decoded, a body containing no `<SOAP`/`<soap` anywhere
is the not-a-SOAP-message error, and any remaining body is decoded. -/
def handleResponse {ρ : Type} (xmlUnmarshal : UnmarshalFn ρ) (resp : HttpResp)
    (response? : Option ρ) : CallResult ρ :=
  if ("multipart/".toList).isPrefixOf resp.mediaType then
    match findSoapPart resp.parts with
    | .error e => ⟨none, some e, initTarget response?⟩
    | .ok rawBody => decodeRespond xmlUnmarshal resp rawBody response?
  else
    match resp.singleBody with
    | .error e => ⟨some resp, some e, initTarget response?⟩
    | .ok rawBody =>
      if rawBody.length = 0 then ⟨some resp, none, initTarget response?⟩
      else if !(bytesContains rawBody soapPrefixTagLC || bytesContains rawBody soapPrefixTagUC) then
        ⟨none, some (notSoapMsg rawBody), initTarget response?⟩
      else decodeRespond xmlUnmarshal resp rawBody response?

/-- Transcribes `Call` from `client.go`.  `xmlUnmarshal` stands for the fixed
`encoding/xml.Unmarshal` the source reaches statically at line 195 (it is not
the injected `c.marshaller.unmarshal`); `soapAction` only shapes a request
header and is carried for signature fidelity. -/
def call {α ρ : Type} (xmlUnmarshal : UnmarshalFn ρ) (c : Client α ρ)
    (_soapAction : String) (request : α) (response? : Option ρ) : CallResult ρ :=
  match encodeRequest c request with
  | .error e => ⟨none, some e, initTarget response?⟩
  | .ok sendBody =>
    match c.httpClientDoFn sendBody with
    | .error e => ⟨none, some e, initTarget response?⟩
    | .ok resp => handleResponse xmlUnmarshal resp response?

/-! ### Properties of the namespace translation -/

theorem replaceAllAux_skip (pat rep : Bytes) :
    ∀ (u : Bytes) (k : Nat), replaceAllAux pat rep k u = replaceAllAux pat rep 0 (u.drop k)
  | [], k => by cases k <;> rfl
  | _ :: _, 0 => rfl
  | c :: rest, k + 1 => by
    simp only [replaceAllAux, List.drop_succ_cons]
    exact replaceAllAux_skip pat rep rest k

theorem replaceAll_pos (pat rep t : Bytes) (hne : pat ≠ []) :
    replaceAll pat rep (pat ++ t) = rep ++ replaceAll pat rep t := by
  cases pat with
  | nil => exact absurd rfl hne
  | cons p ps =>
    have hpre : (p :: ps).isPrefixOf (p :: (ps ++ t)) = true :=
      List.isPrefixOf_iff_prefix.mpr ⟨t, by simp⟩
    simp only [replaceAll, List.cons_append]
    rw [show replaceAllAux (p :: ps) rep 0 (p :: (ps ++ t)) =
        if (p :: ps).isPrefixOf (p :: (ps ++ t)) then
          rep ++ replaceAllAux (p :: ps) rep ((p :: ps).length - 1) (ps ++ t)
        else p :: replaceAllAux (p :: ps) rep 0 (ps ++ t) from rfl]
    rw [if_pos hpre]
    rw [show (p :: ps).length - 1 = ps.length from by simp]
    rw [replaceAllAux_skip, List.drop_left]

theorem replaceAll_neg (pat rep : Bytes) (c : Char) (rest : Bytes)
    (h : ¬ pat <+: (c :: rest)) :
    replaceAll pat rep (c :: rest) = c :: replaceAll pat rep rest := by
  cases pat with
  | nil => exact absurd List.nil_prefix h
  | cons p ps =>
    have hpre : (p :: ps).isPrefixOf (c :: rest) = false := by
      simp only [Bool.eq_false_iff, ne_eq, List.isPrefixOf_iff_prefix]
      exact h
    simp only [replaceAll, replaceAllAux, hpre, Bool.false_eq_true, if_false]

/-- The SOAP 1.2 namespace literal has no non-trivial border: no proper
non-empty suffix of it is also a prefix of it.  This is what makes the
textual round-trip safe: a 1.2 literal freshly written by `replaceSoap11to12`
can never overlap another occurrence. -/
theorem ns12_noBorder :
    ∀ d, d < bNamespaceSoap12.length → 1 ≤ d → ¬ (bNamespaceSoap12.drop d <+: bNamespaceSoap12) := by
  decide

theorem drop12_prefix_replaceAll (u : Bytes) :
    ∀ (d : Nat), 1 ≤ d → d < bNamespaceSoap12.length →
      bNamespaceSoap12.drop d <+: replaceAll bNamespaceSoap11 bNamespaceSoap12 u →
      bNamespaceSoap12.drop d <+: u := by
  induction u with
  | nil =>
    intro d _ hd2 h
    rw [show replaceAll bNamespaceSoap11 bNamespaceSoap12 [] = [] from rfl,
      List.prefix_nil] at h
    have := congrArg List.length h
    simp only [List.length_drop, List.length_nil] at this
    omega
  | cons c rest ih =>
    intro d hd1 hd2 h
    by_cases hp : bNamespaceSoap11 <+: (c :: rest)
    · obtain ⟨t, ht⟩ := hp
      rw [← ht, replaceAll_pos _ _ _ (by decide)] at h
      have hlen : (bNamespaceSoap12.drop d).length ≤ bNamespaceSoap12.length := by
        simp only [List.length_drop]; omega
      rw [List.prefix_iff_eq_take, List.take_append_of_le_length hlen,
        ← List.prefix_iff_eq_take] at h
      exact absurd h (ns12_noBorder d hd2 hd1)
    · rw [replaceAll_neg _ _ _ _ hp] at h
      rw [List.drop_eq_getElem_cons hd2, List.cons_prefix_cons] at h
      obtain ⟨hc, htail⟩ := h
      have htail2 : bNamespaceSoap12.drop (d + 1) <+: rest := by
        by_cases hlt : d + 1 < bNamespaceSoap12.length
        · exact ih (d + 1) (by omega) hlt htail
        · rw [List.drop_eq_nil_iff.mpr (by omega)]
          exact List.nil_prefix
      rw [List.drop_eq_getElem_cons hd2, List.cons_prefix_cons]
      exact ⟨hc, htail2⟩

theorem prefix12_replaceAll (u : Bytes) (hni : ¬ bNamespaceSoap12 <:+: u)
    (h : bNamespaceSoap12 <+: replaceAll bNamespaceSoap11 bNamespaceSoap12 u) :
    bNamespaceSoap11 <+: u := by
  by_cases hp : bNamespaceSoap11 <+: u
  · exact hp
  · exfalso
    cases u with
    | nil =>
      rw [show replaceAll bNamespaceSoap11 bNamespaceSoap12 [] = [] from rfl,
        List.prefix_nil] at h
      exact absurd h (by decide)
    | cons c rest =>
      rw [replaceAll_neg _ _ _ _ hp] at h
      have h0 : 0 < bNamespaceSoap12.length := by decide
      have hsplit : bNamespaceSoap12 = bNamespaceSoap12[0] :: bNamespaceSoap12.drop 1 := by
        conv_lhs => rw [← List.drop_zero bNamespaceSoap12]
        exact List.drop_eq_getElem_cons h0
      rw [hsplit, List.cons_prefix_cons] at h
      obtain ⟨hc, htail⟩ := h
      have hrest := drop12_prefix_replaceAll rest 1 le_rfl (by decide) htail
      have hpre : bNamespaceSoap12 <+: c :: rest := by
        rw [hsplit, List.cons_prefix_cons]
        exact ⟨hc, hrest⟩
      exact hni hpre.isInfix

theorem roundtrip_of_no12 :
    ∀ (n : Nat) (p : Bytes), p.length ≤ n → ¬ bNamespaceSoap12 <:+: p →
      replaceAll bNamespaceSoap12 bNamespaceSoap11
        (replaceAll bNamespaceSoap11 bNamespaceSoap12 p) = p := by
  intro n
  induction n with
  | zero =>
    intro p hlen _
    have hp0 : p = [] := List.length_eq_zero.mp (Nat.le_zero.mp hlen)
    subst hp0
    rfl
  | succ n ih =>
    intro p hlen hni
    by_cases hp : bNamespaceSoap11 <+: p
    · obtain ⟨t, ht⟩ := hp
      subst ht
      rw [replaceAll_pos _ _ _ (by decide), replaceAll_pos _ _ _ (by decide)]
      have hlt : t.length ≤ n := by
        have h11 : 0 < bNamespaceSoap11.length := by decide
        rw [List.length_append] at hlen
        omega
      have hnt : ¬ bNamespaceSoap12 <:+: t := fun hc =>
        hni (hc.trans (List.suffix_append bNamespaceSoap11 t).isInfix)
      rw [ih t hlt hnt]
    · cases p with
      | nil => rfl
      | cons c rest =>
        rw [replaceAll_neg _ _ _ _ hp]
        have hnp : ¬ bNamespaceSoap12 <+: (c :: replaceAll bNamespaceSoap11 bNamespaceSoap12 rest) := by
          intro hcontra
          refine hp (prefix12_replaceAll (c :: rest) hni ?_)
          rw [replaceAll_neg _ _ _ _ hp]
          exact hcontra
        rw [replaceAll_neg _ _ _ _ hnp]
        have hlt : rest.length ≤ n := by
          simp only [List.length_cons] at hlen
          omega
        have hnt : ¬ bNamespaceSoap12 <:+: rest := fun hc =>
          hni (hc.trans (List.suffix_append [c] rest).isInfix)
        rw [ih rest hlt hnt]

/-! ### Claim C5 — namespace translation round-trip -/

/-- C5 (amended): for every payload that contains the SOAP 1.1 namespace
literal at least once **and does not contain the SOAP 1.2 namespace
literal**, translating 1.1→1.2 and back 1.2→1.1 restores the payload
unchanged.  (As stated, with no condition on 1.2 occurrences, the claim is
refuted by `replaceSoap_roundtrip_counterexample`.) -/
theorem replaceSoap_roundtrip_of_no12 (p : Bytes) (_h11 : bNamespaceSoap11 <:+: p)
    (h12 : ¬ bNamespaceSoap12 <:+: p) :
    replaceSoap12to11 (replaceSoap11to12 p) = p := by
  simp only [replaceSoap12to11, replaceSoap11to12]
  exact roundtrip_of_no12 p.length p le_rfl h12

/-- Witness for `replaceSoap_roundtrip_of_no12` at the payload that is the
1.1 literal itself. -/
theorem replaceSoap_roundtrip_of_no12_witness :
    bNamespaceSoap11 <:+: bNamespaceSoap11 ∧ ¬ bNamespaceSoap12 <:+: bNamespaceSoap11 ∧
      replaceSoap12to11 (replaceSoap11to12 bNamespaceSoap11) = bNamespaceSoap11 :=
  ⟨by decide, by decide,
    replaceSoap_roundtrip_of_no12 bNamespaceSoap11 (by decide) (by decide)⟩

/-- C5 counterexample: the payload `ns11 ++ ns12` contains the 1.1 literal at
least once, yet the round-trip rewrites its 1.2 literal into a second 1.1
literal instead of restoring it. -/
theorem replaceSoap_roundtrip_counterexample :
    bNamespaceSoap11 <:+: (bNamespaceSoap11 ++ bNamespaceSoap12) ∧
      replaceSoap12to11 (replaceSoap11to12 (bNamespaceSoap11 ++ bNamespaceSoap12)) ≠
        bNamespaceSoap11 ++ bNamespaceSoap12 := by
  constructor
  · decide
  · decide

/-! ### Claim C4 — fault formatter on the bare Fault fragment -/

/-- The fragment named by C4. -/
def c4Fragment : Bytes :=
  "<soap:Fault><faultcode>A</faultcode><faultstring>B</faultstring></soap:Fault>".toList

/-- C4 counterexample: on the bare Fault fragment with `startLevel = 1` the
formatter does **not** emit the two tagged lines the claim promises. -/
theorem formatFaultXML_fragment_counterexample :
    formatFaultXML c4Fragment 1 ≠
      "<faultcode>A</faultcode>\n<faultstring>B</faultstring>".toList := by
  decide

/-- C4 (amended): with `startLevel = 1` a tag is only emitted when its start
is seen at a level strictly above 1, so on the bare fragment both child tags
(seen at level 1) are elided along with the `Fault` wrapper, and only the
character data survives: the output is exactly the two lines `A` and `B`. -/
theorem formatFaultXML_fragment_amended :
    formatFaultXML c4Fragment 1 = "A\nB".toList := by
  decide

/-! ### Claim C10 — version / content-type pairing -/

/-- The pairing C10 claims: the configured SOAP version is 1.1 exactly when
the content type is the 1.1 one, and 1.2 exactly when it is the 1.2 one. -/
def versionContentTypePaired {α ρ : Type} (c : Client α ρ) : Prop :=
  (c.soapVersion = SoapVersion11 ↔ c.contentType = SoapContentType11) ∧
  (c.soapVersion = SoapVersion12 ↔ c.contentType = SoapContentType12)

/-- C10: `NewClient`, `useSoap11` and `useSoap12` each leave the client with
`soapVersion` and `contentType` forming a matching pair. -/
theorem client_version_contentType_pairing {α ρ : Type} (sm : XMLMarshaller α ρ)
    (sd : Bytes → Except Err HttpResp) (url : String) (auth : Option BasicAuth)
    (c : Client α ρ) :
    versionContentTypePaired (NewClient sm sd url auth) ∧
      versionContentTypePaired (useSoap11 c) ∧ versionContentTypePaired (useSoap12 c) := by
  refine ⟨⟨?_, ?_⟩, ⟨?_, ?_⟩, ⟨?_, ?_⟩⟩ <;> simp only [NewClient, useSoap11, useSoap12] <;>
    decide

/-! ### Claim C2 — the injected unmarshaller is never consulted -/

/-- C2 (code_bug evidence): `Call` decodes with the fixed `encoding/xml`
capability (line 195), never through the injected `Marshaller`'s `Unmarshal`,
so two clients differing only in that method behave identically — replacing
the XML engine does *not* change how responses are unmarshalled, contrary to
the claim and to the `XMLMarshaller` interface's stated purpose. -/
theorem call_ignores_injected_unmarshal {α ρ : Type} (xmlUnmarshal : UnmarshalFn ρ)
    (c : Client α ρ) (f g : UnmarshalFn ρ) (a : String) (req : α) (r? : Option ρ) :
    call xmlUnmarshal { c with marshaller := { c.marshaller with unmarshal := f } } a req r? =
      call xmlUnmarshal { c with marshaller := { c.marshaller with unmarshal := g } } a req r? :=
  rfl

/-- On every decode outcome, `decodeRespond` never returns a present
`*http.Response` together with an error: the read-failure path is the only
two-sided return in `Call`, and it is outside `decodeRespond`. -/
theorem decodeRespond_shape {ρ : Type} (u : UnmarshalFn ρ) (resp : HttpResp) (b : Bytes)
    (r? : Option ρ) :
    (decodeRespond u resp b r?).httpResp = none ∨ (decodeRespond u resp b r?).err = none := by
  simp only [decodeRespond]
  cases (u (replaceSoap12to11 b) (initTarget r?)).err with
  | some e => exact Or.inl rfl
  | none =>
    cases (u (replaceSoap12to11 b) (initTarget r?)).fault with
    | some f => exact Or.inl rfl
    | none => exact Or.inr rfl


/-- Unfolding of `call` past a successful encode and transport exchange. -/
theorem call_past_transport {α ρ : Type} (u : UnmarshalFn ρ) (c : Client α ρ) (a : String)
    (req : α) (r? : Option ρ) (sendBody : Bytes) (resp : HttpResp)
    (he : encodeRequest c req = .ok sendBody) (ht : c.httpClientDoFn sendBody = .ok resp) :
    call u c a req r? = handleResponse u resp r? := by
  simp only [call, he, ht]

/-- Unfolding of `handleResponse`: multipart branch, no soapy part found or a
part read failed. -/
theorem handleResponse_mp_err {ρ : Type} (u : UnmarshalFn ρ) (resp : HttpResp)
    (r? : Option ρ) (e : Err) (hm : ("multipart/".toList).isPrefixOf resp.mediaType = true)
    (hf : findSoapPart resp.parts = .error e) :
    handleResponse u resp r? = ⟨none, some e, initTarget r?⟩ := by
  simp only [handleResponse]
  rw [if_pos hm, hf]

/-- Unfolding of `handleResponse`: multipart branch, soapy part found — its
bytes are the payload handed to the decode stage. -/
theorem handleResponse_mp_ok {ρ : Type} (u : UnmarshalFn ρ) (resp : HttpResp)
    (r? : Option ρ) (b : Bytes) (hm : ("multipart/".toList).isPrefixOf resp.mediaType = true)
    (hf : findSoapPart resp.parts = .ok b) :
    handleResponse u resp r? = decodeRespond u resp b r? := by
  simp only [handleResponse]
  rw [if_pos hm, hf]

/-- Unfolding of `handleResponse`: single-part branch, body read failure. -/
theorem handleResponse_sp_readErr {ρ : Type} (u : UnmarshalFn ρ) (resp : HttpResp)
    (r? : Option ρ) (e : Err) (hm : ("multipart/".toList).isPrefixOf resp.mediaType = false)
    (hb : resp.singleBody = .error e) :
    handleResponse u resp r? = ⟨some resp, some e, initTarget r?⟩ := by
  simp only [handleResponse]
  rw [if_neg (by rw [hm]; exact Bool.false_ne_true), hb]

/-- Unfolding of `handleResponse`: single-part branch, body read in full. -/
theorem handleResponse_sp_body {ρ : Type} (u : UnmarshalFn ρ) (resp : HttpResp)
    (r? : Option ρ) (rawBody : Bytes)
    (hm : ("multipart/".toList).isPrefixOf resp.mediaType = false)
    (hb : resp.singleBody = .ok rawBody) :
    handleResponse u resp r? =
      if rawBody.length = 0 then ⟨some resp, none, initTarget r?⟩
      else if !(bytesContains rawBody soapPrefixTagLC ||
          bytesContains rawBody soapPrefixTagUC) then
        ⟨none, some (notSoapMsg rawBody), initTarget r?⟩
      else decodeRespond u resp rawBody r? := by
  simp only [handleResponse]
  rw [if_neg (by rw [hm]; exact Bool.false_ne_true), hb]

/-! ### Claim C9 — which failures return the HTTP response -/

/-- C9: `call` returns a present HTTP response together with an error exactly
on the single-part body-read failure, and there it returns that response and
that read error unchanged; every other error path leaves the response `nil`. -/
theorem call_response_error_shape {α ρ : Type} (xmlUnmarshal : UnmarshalFn ρ)
    (c : Client α ρ) (a : String) (req : α) (r? : Option ρ) :
    (((call xmlUnmarshal c a req r?).httpResp.isSome ∧
        (call xmlUnmarshal c a req r?).err.isSome) ↔
      (∃ sendBody resp e, encodeRequest c req = .ok sendBody ∧
        c.httpClientDoFn sendBody = .ok resp ∧
        ("multipart/".toList).isPrefixOf resp.mediaType = false ∧
        resp.singleBody = .error e)) ∧
    (∀ sendBody resp e, encodeRequest c req = .ok sendBody →
      c.httpClientDoFn sendBody = .ok resp →
      ("multipart/".toList).isPrefixOf resp.mediaType = false →
      resp.singleBody = .error e →
      call xmlUnmarshal c a req r? = ⟨some resp, some e, initTarget r?⟩) := by
  have mainImp : ∀ sendBody resp e, encodeRequest c req = .ok sendBody →
      c.httpClientDoFn sendBody = .ok resp →
      ("multipart/".toList).isPrefixOf resp.mediaType = false →
      resp.singleBody = .error e →
      call xmlUnmarshal c a req r? = ⟨some resp, some e, initTarget r?⟩ := by
    intro sendBody resp e he ht hm hb
    rw [call_past_transport xmlUnmarshal c a req r? sendBody resp he ht,
      handleResponse_sp_readErr xmlUnmarshal resp r? e hm hb]
  refine ⟨⟨?_, ?_⟩, mainImp⟩
  · intro h
    cases he : encodeRequest c req with
    | error e => rw [show call xmlUnmarshal c a req r? =
        ⟨none, some e, initTarget r?⟩ from by simp only [call, he]] at h; simp at h
    | ok sendBody =>
      cases ht : c.httpClientDoFn sendBody with
      | error e => rw [show call xmlUnmarshal c a req r? =
          ⟨none, some e, initTarget r?⟩ from by simp only [call, he, ht]] at h; simp at h
      | ok resp =>
        rw [call_past_transport xmlUnmarshal c a req r? sendBody resp he ht] at h
        cases hm : ("multipart/".toList).isPrefixOf resp.mediaType with
        | true =>
          exfalso
          cases hf : findSoapPart resp.parts with
          | error e => rw [handleResponse_mp_err xmlUnmarshal resp r? e hm hf] at h; simp at h
          | ok rawBody =>
            rw [handleResponse_mp_ok xmlUnmarshal resp r? rawBody hm hf] at h
            rcases decodeRespond_shape xmlUnmarshal resp rawBody r? with hs | hs <;>
              rw [hs] at h <;> simp at h
        | false =>
          cases hb : resp.singleBody with
          | error e => exact ⟨sendBody, resp, e, rfl, ht, hm, hb⟩
          | ok rawBody =>
            exfalso
            rw [handleResponse_sp_body xmlUnmarshal resp r? rawBody hm hb] at h
            by_cases hz : rawBody.length = 0
            · rw [if_pos hz] at h; simp at h
            · rw [if_neg hz] at h
              cases hns : !(bytesContains rawBody soapPrefixTagLC ||
                  bytesContains rawBody soapPrefixTagUC) with
              | true =>
                rw [if_pos hns] at h; simp at h
              | false =>
                rw [if_neg (by rw [hns]; exact Bool.false_ne_true)] at h
                rcases decodeRespond_shape xmlUnmarshal resp rawBody r? with hs | hs <;>
                  rw [hs] at h <;> simp at h
  · rintro ⟨sendBody, resp, e, he, ht, hm, hb⟩
    rw [mainImp sendBody resp e he ht hm hb]
    simp

/-! ### Claim C6 — multipart part selection -/

/-- C6: the multipart scan returns the first part in stream order whose bytes
begin with `<soap` or `<SOAP` (both cases checked); exhausting the stream over
non-soapy parts yields the no-soapy-part error; a part that fails to be read
aborts with that error; and on the multipart branch `handleResponse` surfaces
the scan's error verbatim, or hands the selected part's bytes to the decode
stage as the SOAP payload. -/
theorem findSoapPart_selection :
    (∀ (pre : List (Except Err Bytes)) (b : Bytes) (post : List (Except Err Bytes)),
      (∀ x ∈ pre, ∃ bb, x = .ok bb ∧ isSoapPart bb = false) → isSoapPart b = true →
      findSoapPart (pre ++ .ok b :: post) = .ok b) ∧
    (∀ parts : List (Except Err Bytes),
      (∀ x ∈ parts, ∃ bb, x = .ok bb ∧ isSoapPart bb = false) →
      findSoapPart parts = .error noSoapPartMsg) ∧
    (∀ (pre : List (Except Err Bytes)) (e : Err) (post : List (Except Err Bytes)),
      (∀ x ∈ pre, ∃ bb, x = .ok bb ∧ isSoapPart bb = false) →
      findSoapPart (pre ++ .error e :: post) = .error e) ∧
    (∀ (ρ : Type) (u : UnmarshalFn ρ) (resp : HttpResp) (r? : Option ρ) (e : Err),
      ("multipart/".toList).isPrefixOf resp.mediaType = true →
      findSoapPart resp.parts = .error e →
      handleResponse u resp r? = ⟨none, some e, initTarget r?⟩) ∧
    (∀ (ρ : Type) (u : UnmarshalFn ρ) (resp : HttpResp) (r? : Option ρ) (b : Bytes),
      ("multipart/".toList).isPrefixOf resp.mediaType = true →
      findSoapPart resp.parts = .ok b →
      handleResponse u resp r? = decodeRespond u resp b r?) := by
  refine ⟨?_, ?_, ?_, ?_, ?_⟩
  · intro pre
    induction pre with
    | nil =>
      intro b post _ hb
      simp [findSoapPart, hb]
    | cons x xs ih =>
      intro b post hpre hb
      obtain ⟨bb, hx, hbb⟩ := hpre x (List.mem_cons_self x xs)
      subst hx
      simp only [List.cons_append, findSoapPart, hbb, Bool.false_eq_true, if_false]
      exact ih b post (fun y hy => hpre y (List.mem_cons_of_mem _ hy)) hb
  · intro parts
    induction parts with
    | nil => intro _; rfl
    | cons x xs ih =>
      intro hall
      obtain ⟨bb, hx, hbb⟩ := hall x (List.mem_cons_self x xs)
      subst hx
      simp only [findSoapPart, hbb, Bool.false_eq_true, if_false]
      exact ih fun y hy => hall y (List.mem_cons_of_mem _ hy)
  · intro pre
    induction pre with
    | nil => intro e post _; rfl
    | cons x xs ih =>
      intro e post hpre
      obtain ⟨bb, hx, hbb⟩ := hpre x (List.mem_cons_self x xs)
      subst hx
      simp only [List.cons_append, findSoapPart, hbb, Bool.false_eq_true, if_false]
      exact ih e post fun y hy => hpre y (List.mem_cons_of_mem _ hy)
  · intro ρ u resp r? e hm hf
    exact handleResponse_mp_err u resp r? e hm hf
  · intro ρ u resp r? b hm hf
    exact handleResponse_mp_ok u resp r? b hm hf

/-- Witness for `findSoapPart_selection`: over a stream whose first part is
not soapy, the second, soapy part is selected. -/
theorem findSoapPart_selection_witness :
    findSoapPart [Except.ok "ignored".toList, Except.ok "<soap:Envelope/>".toList] =
      .ok "<soap:Envelope/>".toList :=
  findSoapPart_selection.1 [Except.ok "ignored".toList] ("<soap:Envelope/>".toList) []
    (by
      intro x hx
      rw [List.mem_singleton] at hx
      exact ⟨"ignored".toList, hx, by decide⟩)
    (by decide)

/-! ### Claim C7 — when each namespace translation runs -/

/-- C7: the outgoing 1.1→1.2 rewrite is applied to the marshalled envelope
exactly when the configured version is SOAP 1.2, and the response side applies
the 1.2→1.1 rewrite before decoding for every configuration: the decoder is
only ever consulted on already-translated bytes (so two decoders agreeing on
translated inputs make `handleResponse` agree on every response). -/
theorem call_version_translation :
    (∀ (α ρ : Type) (c : Client α ρ) (req : α) (m : Bytes),
      c.marshaller.marshal (requestEnvelope req) = .ok m →
      encodeRequest c req =
        .ok (if c.soapVersion = SoapVersion12 then replaceSoap11to12 m else m)) ∧
    (∀ (ρ : Type) (u u' : UnmarshalFn ρ) (resp : HttpResp) (r? : Option ρ),
      (∀ b tgt, u (replaceSoap12to11 b) tgt = u' (replaceSoap12to11 b) tgt) →
      handleResponse u resp r? = handleResponse u' resp r?) := by
  constructor
  · intro α ρ c req m hm
    simp only [encodeRequest, hm]
  · intro ρ u u' resp r? hagree
    have hdec : ∀ b, decodeRespond u resp b r? = decodeRespond u' resp b r? := by
      intro b
      simp only [decodeRespond, hagree b (initTarget r?)]
    cases hm : ("multipart/".toList).isPrefixOf resp.mediaType with
    | true =>
      cases hf : findSoapPart resp.parts with
      | error e =>
        rw [handleResponse_mp_err u resp r? e hm hf, handleResponse_mp_err u' resp r? e hm hf]
      | ok b =>
        rw [handleResponse_mp_ok u resp r? b hm hf, handleResponse_mp_ok u' resp r? b hm hf]
        exact hdec b
    | false =>
      cases hb : resp.singleBody with
      | error e =>
        rw [handleResponse_sp_readErr u resp r? e hm hb,
          handleResponse_sp_readErr u' resp r? e hm hb]
      | ok rawBody =>
        rw [handleResponse_sp_body u resp r? rawBody hm hb,
          handleResponse_sp_body u' resp r? rawBody hm hb]
        by_cases hz : rawBody.length = 0
        · rw [if_pos hz, if_pos hz]
        · rw [if_neg hz, if_neg hz]
          by_cases hns : (!(bytesContains rawBody soapPrefixTagLC ||
              bytesContains rawBody soapPrefixTagUC)) = true
          · rw [if_pos hns, if_pos hns]
          · rw [if_neg hns, if_neg hns]
            exact hdec rawBody

/-- The injected marshaller used by the C7 witness: it emits an envelope
containing the 1.1 namespace literal. -/
def c7Marshaller : XMLMarshaller Nat Nat :=
  ⟨fun _ => .ok ("<e>".toList ++ bNamespaceSoap11 ++ "</e>".toList), fun _ t => ⟨t, none, none⟩⟩

/-- Witness for `call_version_translation`: a 1.2-configured client sends the
translated envelope, a 1.1-configured client sends it untouched, and the
decoder-agreement premise is dischargeable. -/
theorem call_version_translation_witness :
    encodeRequest (useSoap12 (NewClient c7Marshaller httpDefaultClientDo "u" none)) 0 =
      .ok (replaceSoap11to12 ("<e>".toList ++ bNamespaceSoap11 ++ "</e>".toList)) ∧
    encodeRequest (NewClient c7Marshaller httpDefaultClientDo "u" none) 0 =
      .ok ("<e>".toList ++ bNamespaceSoap11 ++ "</e>".toList) ∧
    handleResponse (fun _ t => ⟨t, none, none⟩ : UnmarshalFn Nat)
        ⟨"text/xml".toList, [], .ok []⟩ (some 0) =
      handleResponse (fun _ t => ⟨t, none, none⟩) ⟨"text/xml".toList, [], .ok []⟩ (some 0) := by
  refine ⟨?_, ?_, ?_⟩
  · rw [call_version_translation.1 Nat Nat
      (useSoap12 (NewClient c7Marshaller httpDefaultClientDo "u" none)) 0 _ rfl]
    rw [if_pos (by decide)]
  · rw [call_version_translation.1 Nat Nat
      (NewClient c7Marshaller httpDefaultClientDo "u" none) 0 _ rfl]
    rw [if_neg (by decide)]
  · exact call_version_translation.2 Nat (fun _ t => ⟨t, none, none⟩) (fun _ t => ⟨t, none, none⟩)
      ⟨"text/xml".toList, [], .ok []⟩ (some 0) (fun _ _ => rfl)

/-! ### Claim C8 — empty single-part body is a success -/

/-- C8: a single-part response whose body reads back empty makes `call`
return the HTTP response with no error, and the caller-supplied response
value is left exactly as it was (the decoder is never consulted: the
conclusion holds for every `xmlUnmarshal`). -/
theorem call_emptyBody_success {α ρ : Type} (xmlUnmarshal : UnmarshalFn ρ) (c : Client α ρ)
    (a : String) (req : α) (r0 : ρ) (sendBody : Bytes) (resp : HttpResp)
    (he : encodeRequest c req = .ok sendBody) (ht : c.httpClientDoFn sendBody = .ok resp)
    (hm : ("multipart/".toList).isPrefixOf resp.mediaType = false)
    (hb : resp.singleBody = .ok []) :
    call xmlUnmarshal c a req (some r0) = ⟨some resp, none, Target.caller r0⟩ := by
  rw [call_past_transport xmlUnmarshal c a req (some r0) sendBody resp he ht,
    handleResponse_sp_body xmlUnmarshal resp (some r0) [] hm hb]
  simp [initTarget]

/-- The concrete empty-body response of the C8 witness. -/
def c8Resp : HttpResp := ⟨"text/xml".toList, [], .ok []⟩

/-- The concrete client of the C8 witness. -/
def c8Client : Client Nat Nat :=
  { url := "http://server.example"
    tls := false
    auth := none
    marshaller := ⟨fun _ => .ok "<soap:Envelope/>".toList, fun _ t => ⟨t, none, none⟩⟩
    userAgent := ""
    contentType := SoapContentType11
    soapVersion := SoapVersion11
    httpClientDoFn := fun _ => .ok c8Resp }

/-- Witness for `call_emptyBody_success` on a concrete empty-body exchange. -/
theorem call_emptyBody_success_witness :
    call (fun _ t => ⟨t, none, none⟩ : UnmarshalFn Nat) c8Client "act" 3 (some 9) =
      ⟨some c8Resp, none, Target.caller 9⟩ :=
  call_emptyBody_success (fun _ t => ⟨t, none, none⟩) c8Client "act" 3 9
    ("<soap:Envelope/>".toList) c8Resp (by decide) rfl (by decide) rfl

/-- The concrete read-failing response of the C9 witness. -/
def c9Resp : HttpResp := ⟨"text/xml".toList, [], .error "read failed".toList⟩

/-- The concrete client of the C9 witness. -/
def c9Client : Client Nat Nat :=
  { url := "http://server.example"
    tls := false
    auth := none
    marshaller := ⟨fun _ => .ok "<soap:Envelope/>".toList, fun _ t => ⟨t, none, none⟩⟩
    userAgent := ""
    contentType := SoapContentType11
    soapVersion := SoapVersion11
    httpClientDoFn := fun _ => .ok c9Resp }

/-- Witness for `call_response_error_shape`: a failing single-part body read
returns the response and the read error together. -/
theorem call_response_error_shape_witness :
    call (fun _ t => ⟨t, none, none⟩ : UnmarshalFn Nat) c9Client "a" 0 (some 1) =
      ⟨some c9Resp, some "read failed".toList, Target.caller 1⟩ :=
  (call_response_error_shape (fun _ t => ⟨t, none, none⟩) c9Client "a" 0 (some 1)).2
    ("<soap:Envelope/>".toList) c9Resp ("read failed".toList) (by decide) rfl (by decide) rfl

/-! ### Claim C3 — the single-part SOAP check is containment, not prefix -/

/-- The single-part body of the C3 counterexample: it does **not** begin with
`<SOAP`/`<soap`, but contains `<soap` further in. -/
def c3Body : Bytes := "x<soap:Envelope/>".toList

/-- The response carrying `c3Body`. -/
def c3Resp : HttpResp := ⟨"text/xml".toList, [], .ok c3Body⟩

/-- The concrete client of the C3 counterexample and witness. -/
def c3Client : Client Nat Nat :=
  { url := "http://server.example"
    tls := false
    auth := none
    marshaller := ⟨fun _ => .ok "<soap:Envelope/>".toList, fun _ t => ⟨t, none, none⟩⟩
    userAgent := ""
    contentType := SoapContentType11
    soapVersion := SoapVersion11
    httpClientDoFn := fun _ => .ok c3Resp }

/-- The decoder used in the C3 scenarios: succeeds, decodes no fault. -/
def c3Unmarshal : UnmarshalFn Nat := fun _ t => ⟨t, none, none⟩

/-- C3 counterexample: a non-empty single-part body that does not *begin*
with either SOAP prefix is nevertheless accepted (the call succeeds), because
line 171 of `client.go` tests containment, not a prefix. -/
theorem call_notSoapMessage_counterexample :
    soapPrefixTagLC.isPrefixOf c3Body = false ∧
    soapPrefixTagUC.isPrefixOf c3Body = false ∧
    c3Body ≠ [] ∧
    call c3Unmarshal c3Client "a" 0 (some 7) = ⟨some c3Resp, none, Target.caller 7⟩ :=
  ⟨by decide, by decide, by decide, by decide⟩

/-- C3 (amended): for a non-empty single-part body that does not **contain**
`<SOAP` or `<soap` anywhere, `call` fails with the not-a-SOAP-message error,
whose text carries the raw body, and returns no HTTP response. -/
theorem call_notSoapMessage {α ρ : Type} (xmlUnmarshal : UnmarshalFn ρ) (c : Client α ρ)
    (a : String) (req : α) (r? : Option ρ) (sendBody : Bytes) (resp : HttpResp) (b : Bytes)
    (he : encodeRequest c req = .ok sendBody) (ht : c.httpClientDoFn sendBody = .ok resp)
    (hm : ("multipart/".toList).isPrefixOf resp.mediaType = false)
    (hb : resp.singleBody = .ok b) (hne : b.length ≠ 0)
    (hlc : bytesContains b soapPrefixTagLC = false)
    (huc : bytesContains b soapPrefixTagUC = false) :
    call xmlUnmarshal c a req r? = ⟨none, some (notSoapMsg b), initTarget r?⟩ := by
  rw [call_past_transport xmlUnmarshal c a req r? sendBody resp he ht,
    handleResponse_sp_body xmlUnmarshal resp r? b hm hb, if_neg hne,
    if_pos (show (!(bytesContains b soapPrefixTagLC || bytesContains b soapPrefixTagUC)) = true
      from by rw [hlc, huc]; rfl)]

/-- The response of the C3 witness: a body with no SOAP tag anywhere. -/
def c3wResp : HttpResp := ⟨"text/xml".toList, [], .ok "hello".toList⟩

/-- The concrete client of the C3 witness. -/
def c3wClient : Client Nat Nat :=
  { url := "http://server.example"
    tls := false
    auth := none
    marshaller := ⟨fun _ => .ok "<soap:Envelope/>".toList, fun _ t => ⟨t, none, none⟩⟩
    userAgent := ""
    contentType := SoapContentType11
    soapVersion := SoapVersion11
    httpClientDoFn := fun _ => .ok c3wResp }

/-- Witness for `call_notSoapMessage` on a concrete non-SOAP body. -/
theorem call_notSoapMessage_witness :
    call c3Unmarshal c3wClient "a" 0 (some 2) =
      ⟨none, some (notSoapMsg "hello".toList), Target.caller 2⟩ :=
  call_notSoapMessage c3Unmarshal c3wClient "a" 0 (some 2) ("<soap:Envelope/>".toList)
    c3wResp ("hello".toList) (by decide) rfl (by decide) rfl (by decide) (by decide) (by decide)

/-! ### Claim C1 — which bytes the fault error formats -/

/-- C1 (amended): when the decoded response body carries a non-empty fault,
`call` fails with the `SOAP FAULT` error whose message is the formatted
rendering of the response bytes **after** the 1.2→1.1 namespace translation
(in the source, `rawBody` is overwritten by `replaceSoap12to11` at line 184
before line 202 formats it) — not of the bytes as received on the wire, which
is what the claim states and `call_soapFault_counterexample` refutes. -/
theorem call_soapFault_message {α ρ : Type} (xmlUnmarshal : UnmarshalFn ρ) (c : Client α ρ)
    (a : String) (req : α) (r? : Option ρ) (sendBody : Bytes) (resp : HttpResp) (b : Bytes)
    (he : encodeRequest c req = .ok sendBody) (ht : c.httpClientDoFn sendBody = .ok resp)
    (herr : (xmlUnmarshal (replaceSoap12to11 b) (initTarget r?)).err = none)
    (hfault : (xmlUnmarshal (replaceSoap12to11 b) (initTarget r?)).fault.isSome = true) :
    (("multipart/".toList).isPrefixOf resp.mediaType = false → resp.singleBody = .ok b →
      b.length ≠ 0 →
      (bytesContains b soapPrefixTagLC || bytesContains b soapPrefixTagUC) = true →
      call xmlUnmarshal c a req r? =
        ⟨none, some (soapFaultMsg (replaceSoap12to11 b)),
          (xmlUnmarshal (replaceSoap12to11 b) (initTarget r?)).newTarget⟩) ∧
    (("multipart/".toList).isPrefixOf resp.mediaType = true →
      findSoapPart resp.parts = .ok b →
      call xmlUnmarshal c a req r? =
        ⟨none, some (soapFaultMsg (replaceSoap12to11 b)),
          (xmlUnmarshal (replaceSoap12to11 b) (initTarget r?)).newTarget⟩) := by
  obtain ⟨f, hf⟩ := Option.isSome_iff_exists.mp hfault
  have hdec : decodeRespond xmlUnmarshal resp b r? =
      ⟨none, some (soapFaultMsg (replaceSoap12to11 b)),
        (xmlUnmarshal (replaceSoap12to11 b) (initTarget r?)).newTarget⟩ := by
    simp only [decodeRespond]
    rw [herr, hf]
  constructor
  · intro hm hb hne hcontains
    rw [call_past_transport xmlUnmarshal c a req r? sendBody resp he ht,
      handleResponse_sp_body xmlUnmarshal resp r? b hm hb, if_neg hne,
      if_neg (show ¬ (!(bytesContains b soapPrefixTagLC ||
        bytesContains b soapPrefixTagUC)) = true from by rw [hcontains]; decide),
      hdec]
  · intro hm hpart
    rw [call_past_transport xmlUnmarshal c a req r? sendBody resp he ht,
      handleResponse_mp_ok xmlUnmarshal resp r? b hm hpart, hdec]

/-- The wire body of the C1 scenarios: a fault fragment whose character data
is the SOAP 1.2 namespace literal, so the 1.2→1.1 translation changes what
the fault formatter renders. -/
def c1Body : Bytes :=
  "<soap:Fault><detail>http://www.w3.org/2003/05/soap-envelope</detail></soap:Fault>".toList

/-- The fault the C1 decoder reports. -/
def c1Fault : Fault := ⟨"soap:Server", "boom", ""⟩

/-- The C1 decoder: succeeds and decodes a fault, leaving the target as is. -/
def c1Unmarshal : UnmarshalFn Nat := fun _ t => ⟨t, none, some c1Fault⟩

/-- The response carrying `c1Body`. -/
def c1Resp : HttpResp := ⟨"text/xml".toList, [], .ok c1Body⟩

/-- The concrete client of the C1 scenarios. -/
def c1Client : Client Nat Nat :=
  { url := "http://server.example"
    tls := false
    auth := none
    marshaller := ⟨fun _ => .ok "<soap:Envelope/>".toList, fun _ t => ⟨t, none, none⟩⟩
    userAgent := ""
    contentType := SoapContentType11
    soapVersion := SoapVersion11
    httpClientDoFn := fun _ => .ok c1Resp }

/-- C1 counterexample: the decoded body carries a fault, yet the error `call`
returns renders the **translated** bytes (the 1.1 literal appears in the
message), and that differs from the formatted rendering of the raw wire bytes
the claim promises (which would show the 1.2 literal). -/
theorem call_soapFault_counterexample :
    (c1Unmarshal (replaceSoap12to11 c1Body) (initTarget (some 0))).err = none ∧
    (c1Unmarshal (replaceSoap12to11 c1Body) (initTarget (some 0))).fault.isSome = true ∧
    (call c1Unmarshal c1Client "a" 0 (some 0)).err =
      some ("SOAP FAULT:\n".toList ++ bNamespaceSoap11) ∧
    "SOAP FAULT:\n".toList ++ bNamespaceSoap11 ≠
      "SOAP FAULT:\n".toList ++ formatFaultXML c1Body 1 :=
  ⟨rfl, rfl, by decide, by decide⟩

/-- Witness for `call_soapFault_message` on the concrete fault exchange. -/
theorem call_soapFault_message_witness :
    call c1Unmarshal c1Client "a" 0 (some 0) =
      ⟨none, some (soapFaultMsg (replaceSoap12to11 c1Body)), Target.caller 0⟩ :=
  (call_soapFault_message c1Unmarshal c1Client "a" 0 (some 0) ("<soap:Envelope/>".toList)
    c1Resp c1Body (by decide) rfl rfl rfl).1 (by decide) rfl (by decide) (by decide)
